import Mathlib

/-!
# Verification of the CARP MLM gradient-cached training step

Shallow embedding of `src/carp/pytorch/model/architectures/carp_mlm.py`
(class `CARPMLM`, chiefly its `train_step` method), together with the
helper functions it calls.  Helpers that live outside `src/`
(`carp.util.generate_indices`, the inherited `calculate_embeddings` and
`contrastive_loss`, and the two config classes) are modelled from the
spec, as flagged in their doc comments.

The development has three parts:

* an executable, value-level embedding of `train_step` that records the
  ordered effect trace of one call (cache build, `opt.zero_grad()`,
  per-microbatch loss/backward calls, unscale/clip, `scaler.step`,
  `scaler.update`) and the returned diagnostics dictionary;
* an analytic model of the gradient bookkeeping of the two sweeps, where
  autograd's backward is the real derivative, used to settle the
  gradient-cache equivalence law;
* the temperature clamp of the contrastive similarity scale.
-/

namespace CarpMLM

/-! ## Microbatch partitioner

`generate_indices` comes from `carp.util`, which is not under `src/`. -/

/-- Splits a list into consecutive chunks of size `m` (last chunk possibly
shorter), structurally recursive on a fuel argument so that it computes by
kernel reduction; the fuel is always instantiated with the list's length,
which suffices because every step consumes at least one element. -/
def chunkFuel (m : ℕ) : ℕ → List α → List (List α)
  | _, [] => []
  | 0, _ :: _ => []
  | fuel + 1, x :: xs => (x :: xs).take m :: chunkFuel m fuel (xs.drop (m - 1))

/-- Splits a list into consecutive chunks of size `m`, the last chunk
possibly shorter.  Helper for `generate_indices`. -/
def chunkList (m : ℕ) (l : List α) : List (List α) :=
  chunkFuel m l.length l

/-- Modelled from the spec: `generate_indices` (from `carp.util`, not under
`src/`) is called at line 48 as `generate_indices(passages[0].shape[0],
config.microbatch_size, shuffle=False)`.  Per spec §4.1 it deterministically
splits `[0, N)` into an ordered, unshuffled sequence of index groups, each of
size at most the configured microbatch size, the final group possibly smaller
when `N` is not a multiple of it. -/
def generate_indices (total : ℕ) (microbatch_size : ℕ) : List (List ℕ) :=
  chunkList microbatch_size (List.range total)

/-! ## Batches, advanced indexing and microbatch slicing -/

/-- A tokenized batch: the Python code receives `passages`/`reviews` as a
two-element list `[tokens, mask]` of tensors whose leading dimension is the
example count.  Each example's token row and mask row are abstracted to a
value of type `τ`. -/
structure Batch (τ : Type) where
  tokens : List τ
  mask : List τ

/-- `List.mapM` specialised to `Option`, written out recursively so its
equations are directly usable: the whole result is `none` as soon as one
element fails, mirroring a Python comprehension raising at the failing
element. -/
def listMapO (f : α → Option γ) : List α → Option (List γ)
  | [] => some []
  | x :: xs => do
    let y ← f x
    let ys ← listMapO f xs
    pure (y :: ys)

/-- Tensor advanced indexing `rows[idxs]` (lines 52–57): gathers the rows at
the given example positions; an out-of-range position raises (models the
numeric backend's `IndexError`). -/
def gather (rows : List α) (idxs : List ℕ) : Option (List α) :=
  listMapO (fun i => rows[i]?) idxs

/-- Lines 52–57: slice a batch's tokens and mask into microbatches along the
given index groups — `[(passages[0][i], passages[1][i]) for i in
microbatch_inds]` (and the same comprehension for `reviews`). -/
def mkMbs (b : Batch τ) (inds : List (List ℕ)) : Option (List (List τ × List τ)) :=
  listMapO (fun g => do
    let t ← gather b.tokens g
    let m ← gather b.mask g
    pure (t, m)) inds

/-! ## Embedding caches and the two sweeps

The encoders and the contrastive loss are external to `train_step`
(`calculate_embeddings`, `encode_passages`, `encode_reviews` and
`contrastive_loss` are inherited from `ContrastiveModel`, which is not under
`src/`), so the embedding is parameterised by abstract functions: `β` is the
per-example embedding value, `V` the scalar diagnostic value. -/

/-- Modelled from the spec (§4.2): `calculate_embeddings` (line 59, inherited
from `ContrastiveModel`, not under `src/`) runs a tower over every microbatch
with differentiation disabled, producing one detached embedding batch per
index group, in group order. -/
def calculate_embeddings (enc : List τ → List τ → List β)
    (mbs : List (List τ × List τ)) : List (List β) :=
  mbs.map fun tm => enc tm.1 tm.2

/-- Passage sweep (lines 63–73): for each `index, passage` in
`enumerate(pass_mbs)`, take a fresh copy of the detached passage cache
(`pass_tmp = pass_encs.copy()`), overwrite position `index` with the
with-grad re-encoding (`pass_tmp[index] = self.encode_passages(...)`) and
call `contrastive_loss(torch.cat(pass_tmp), torch.cat(rev_encs))`.  Returns
the `(loss, forward_acc)` pair of every call, in iteration order. -/
def passSweep (cl : List β → List β → V × V) (encPassGrad : List τ → List τ → List β)
    (pass_encs rev_encs : List (List β)) (pass_mbs : List (List τ × List τ)) :
    List (V × V) :=
  pass_mbs.enum.map fun ip =>
    let pass_tmp := pass_encs.set ip.1 (encPassGrad ip.2.1 ip.2.2)
    cl pass_tmp.flatten rev_encs.flatten

/-- Review sweep (lines 75–85): symmetric to `passSweep`, substituting the
with-grad review re-encoding into a fresh copy of the detached review cache
(`rev_tmp = rev_encs.copy()`) and pairing against the original detached
passage cache: `contrastive_loss(torch.cat(pass_encs), torch.cat(rev_tmp))`. -/
def revSweep (cl : List β → List β → V × V) (encRevGrad : List τ → List τ → List β)
    (pass_encs rev_encs : List (List β)) (rev_mbs : List (List τ × List τ)) :
    List (V × V) :=
  rev_mbs.enum.map fun ip =>
    let rev_tmp := rev_encs.set ip.1 (encRevGrad ip.2.1 ip.2.2)
    cl pass_encs.flatten rev_tmp.flatten

/-! ## Configs, effects and the training step -/

/-- Modelled from the spec (§6): the train config carries the microbatch size
and the gradient-clip threshold, with `-1` as the disabled sentinel
(`carp.configs` is not under `src/`). -/
structure TrainConfig where
  microbatch_size : ℕ
  grad_clip : Int

/-- Modelled from the spec (§6): the model config carries the latent
dimension, device and encoder selection (`carp.configs` is not under
`src/`); the spec gives it no gradient-clip threshold.  The code nevertheless
reads `self.config.grad_clip` at line 87 (`self.config` is the
`ModelConfig`), so the embedding carries an extra `grad_clip` field to give
that read a value and expose which config each line consults. -/
structure ModelConfig where
  latent_dim : ℕ
  device : String
  encoder_type : String
  model_path : String
  model_arch : String
  grad_clip : Int

/-- The two towers. -/
inductive Tower
  | pass
  | rev
deriving DecidableEq

/-- Observable effects of one `train_step` call, in program order. -/
inductive Event
  /-- line 59: `calculate_embeddings` built both detached caches (no-grad). -/
  | cacheBuilt
  /-- line 61: `opt.zero_grad()`. -/
  | zeroGrad
  /-- lines 70 / 82: one `contrastive_loss` call of the given sweep. -/
  | lossComputed (t : Tower) (index : ℕ)
  /-- lines 73 / 85: `scaler.scale(loss).backward()` accumulates gradients. -/
  | backward (t : Tower) (index : ℕ)
  /-- line 88: `scaler.unscale_(opt)`. -/
  | unscale
  /-- line 89: `torch.nn.utils.clip_grad_norm_(self.parameters(), config.grad_clip)`;
  carries the threshold value actually passed. -/
  | clipGradNorm (threshold : Int)
  /-- line 91: `scaler.step(opt)`. -/
  | scalerStep
  /-- line 92: `scaler.update()`. -/
  | scalerUpdate
deriving DecidableEq

/-- How a `train_step` call can abort. -/
inductive StepError
  /-- the numeric backend rejected an out-of-range gather while slicing
  (lines 52–57). -/
  | indexError
  /-- the return dictionary (lines 93–97) referenced `loss`/`forward_acc`
  although no loop iteration ever bound them (Python `UnboundLocalError`). -/
  | unboundLocalError
deriving DecidableEq

/-- The diagnostics dictionary returned at lines 93–97. -/
structure Diagnostics (V : Type) where
  lossContrastive : V
  lossTrain : V
  accForward : V
deriving DecidableEq

/-- Effect trace of one sweep's loop: each iteration computes a loss and
backpropagates it, in index order. -/
def sweepEvents (t : Tower) (k : ℕ) : List Event :=
  (List.range k).flatMap fun i => [Event.lossComputed t i, Event.backward t i]

/-- `CARPMLM.train_step` (lines 40–97), value-level: returns the ordered
effect trace and either the diagnostics dictionary or the error that aborted
the call.  Correspondence, line by line:

* `microbatch_inds` (48–50), slicing into `pass_mbs`/`rev_mbs` (52–57) with
  the same index groups for both towers, failing with `indexError` when a
  gather is out of range;
* `calculate_embeddings` (59) builds both detached caches, then
  `opt.zero_grad()` (61) — in the source the caches are built *before* the
  gradients are zeroed, hence the event order;
* the passage sweep (63–73) and review sweep (75–85) as `passSweep` /
  `revSweep`, each iteration emitting `lossComputed` then `backward`;
* the clip gate (87) reads `self.config.grad_clip` — the **model** config —
  while the clip call (89) passes `config.grad_clip` — the **train** config;
* `scaler.step(opt)` (91) and `scaler.update()` (92) run unconditionally;
* the returned dictionary (93–97) reads the loop variables `loss` (last
  review-sweep value) and `forward_acc` (last passage-sweep value); when the
  loops never ran these locals are unbound and the dictionary construction
  raises, after the scaler step/update already happened. -/
def train_step (mc : ModelConfig) (cl : List β → List β → V × V)
    (encPassNoGrad encRevNoGrad encPassGrad encRevGrad : List τ → List τ → List β)
    (passages reviews : Batch τ) (config : TrainConfig) :
    List Event × Except StepError (Diagnostics V) :=
  let microbatch_inds := generate_indices passages.tokens.length config.microbatch_size
  match mkMbs passages microbatch_inds, mkMbs reviews microbatch_inds with
  | some pass_mbs, some rev_mbs =>
    let pass_encs := calculate_embeddings encPassNoGrad pass_mbs
    let rev_encs := calculate_embeddings encRevNoGrad rev_mbs
    let passCalls := passSweep cl encPassGrad pass_encs rev_encs pass_mbs
    let revCalls := revSweep cl encRevGrad pass_encs rev_encs rev_mbs
    let clipEvents :=
      if mc.grad_clip ≠ -1 then [Event.unscale, Event.clipGradNorm config.grad_clip]
      else []
    let events :=
      Event.cacheBuilt :: Event.zeroGrad ::
        (sweepEvents Tower.pass pass_mbs.length ++ sweepEvents Tower.rev rev_mbs.length ++
          clipEvents ++ [Event.scalerStep, Event.scalerUpdate])
    match passCalls.getLast?, revCalls.getLast? with
    | some pLast, some rLast => (events, Except.ok ⟨rLast.1, rLast.1, pLast.2⟩)
    | _, _ => (events, Except.error StepError.unboundLocalError)
  | _, _ => ([], Except.error StepError.indexError)

/-! ## Concrete instantiations used to evaluate the embedding -/

/-- A concrete contrastive-loss stand-in over `ℕ`-valued embeddings, used
only to evaluate the embedding on closed inputs. -/
def natCL (p r : List ℕ) : ℕ × ℕ :=
  (p.length, r.length)

/-- A concrete encoder stand-in: the embedding of a microbatch is its token
rows. -/
def natEnc (t _mask : List ℕ) : List ℕ :=
  t

/-- A two-example passage batch. -/
def passB2 : Batch ℕ := ⟨[10, 11], [0, 1]⟩

/-- A two-example review batch. -/
def revB2 : Batch ℕ := ⟨[20, 21], [2, 3]⟩

/-- A one-example passage batch. -/
def passB1 : Batch ℕ := ⟨[10], [0]⟩

/-- A one-example review batch. -/
def revB1 : Batch ℕ := ⟨[20], [2]⟩

/-- An empty batch. -/
def emptyB : Batch ℕ := ⟨[], []⟩

/-- A model config whose `grad_clip` is the disabled sentinel `-1`. -/
def mcSentinel : ModelConfig := ⟨2, "cpu", "roberta", "model", "base", -1⟩

/-- A model config whose `grad_clip` is `1` (not the sentinel). -/
def mcEnabled : ModelConfig := ⟨2, "cpu", "roberta", "model", "base", 1⟩

/-- A train config with microbatch size `1` and clipping threshold `2`. -/
def tcEnabled : TrainConfig := ⟨1, 2⟩

/-- A train config with microbatch size `1` and the disabled sentinel. -/
def tcSentinel : TrainConfig := ⟨1, -1⟩

/-! ## Analytic model of the gradient bookkeeping

The equivalence law (spec §4.3/§8) is about what the backward calls of the
two sweeps accumulate.  Autograd's backward is modelled as the real
derivative: the per-example embedding batches of one tower form a point of
`Fin k → F` (`k` microbatch groups, `F` the embedding batch space), each
tower's trainable parameters are abstracted to a real scalar, and the
contrastive loss is, per spec §4.4, a function `L` of the concatenated
passage embeddings, the concatenated review embeddings and the learned
temperature — modelled from the spec, since `contrastive_loss` is inherited
from `ContrastiveModel`, which is not under `src/`.  The mixed-precision
scale multiplies every backward on both sides of the comparison uniformly
and is removed by `scaler.unscale_`, so it is taken as `1` here. -/

/-- The detached embedding cache of a tower: entry `j` is microbatch `j`'s
embedding at parameter value `θ` (built by `calculate_embeddings`, line 59). -/
def cacheOf {k : ℕ} {F : Type} (f : Fin k → ℝ → F) (θ : ℝ) : Fin k → F :=
  fun j => f j θ

/-- Loss seen by iteration `i` of the passage sweep (lines 66–72), as a
function of the passage-tower parameter `θ`: the working cache is the
detached cache `cP` with only position `i` replaced by the with-grad
re-encoding `fp i θ`, paired against the detached review cache `cR` at the
clamped temperature `τ`. -/
def sweepLossPass {k : ℕ} {F : Type} (L : (Fin k → F) → (Fin k → F) → ℝ → ℝ)
    (fp : Fin k → ℝ → F) (cP cR : Fin k → F) (τ : ℝ) (i : Fin k) : ℝ → ℝ :=
  fun θ => L (Function.update cP i (fp i θ)) cR τ

/-- Loss seen by iteration `i` of the review sweep (lines 78–84), as a
function of the review-tower parameter. -/
def sweepLossRev {k : ℕ} {F : Type} (L : (Fin k → F) → (Fin k → F) → ℝ → ℝ)
    (fr : Fin k → ℝ → F) (cP cR : Fin k → F) (τ : ℝ) (i : Fin k) : ℝ → ℝ :=
  fun θ => L cP (Function.update cR i (fr i θ)) τ

/-- The full-batch loss as a function of the passage-tower parameter, with
differentiation enabled at every passage position (the reference
computation of the spec's equivalence law). -/
def fullLossPass {k : ℕ} {F : Type} (L : (Fin k → F) → (Fin k → F) → ℝ → ℝ)
    (fp : Fin k → ℝ → F) (cR : Fin k → F) (τ : ℝ) : ℝ → ℝ :=
  fun θ => L (cacheOf fp θ) cR τ

/-- The full-batch loss as a function of the review-tower parameter. -/
def fullLossRev {k : ℕ} {F : Type} (L : (Fin k → F) → (Fin k → F) → ℝ → ℝ)
    (fr : Fin k → ℝ → F) (cP : Fin k → F) (τ : ℝ) : ℝ → ℝ :=
  fun θ => L cP (cacheOf fr θ) τ

/-- Total gradient accumulated into the learned temperature by the `2·k`
backward calls of one `train_step`: the temperature is live inside every
`contrastive_loss` call of both sweeps (lines 70 and 82), so every backward
adds the temperature-derivative of that iteration's loss, evaluated with the
swept position holding its re-encoded value `f i θ` (equal to the cached
value, since the parameters have not changed within the step). -/
noncomputable def tauGradAccum {k : ℕ} {F : Type} (L : (Fin k → F) → (Fin k → F) → ℝ → ℝ)
    (fp fr : Fin k → ℝ → F) (θp θr τ0 : ℝ) : ℝ :=
  (∑ i : Fin k,
    deriv (fun t => L (Function.update (cacheOf fp θp) i (fp i θp)) (cacheOf fr θr) t) τ0)
  + ∑ i : Fin k,
    deriv (fun t => L (cacheOf fp θp) (Function.update (cacheOf fr θr) i (fr i θr)) t) τ0

/-- Gradient of the learned temperature under a single full-batch
forward/backward. -/
noncomputable def tauGradFull {k : ℕ} {F : Type} (L : (Fin k → F) → (Fin k → F) → ℝ → ℝ)
    (fp fr : Fin k → ℝ → F) (θp θr τ0 : ℝ) : ℝ :=
  deriv (fun t => L (cacheOf fp θp) (cacheOf fr θr) t) τ0

/-! ## Temperature clamp -/

/-- Line 37: `self.clamp_min = torch.log(torch.tensor([1 / 100]))`. -/
noncomputable def clamp_min : ℝ := Real.log (1 / 100)

/-- Line 38: `self.clamp_max = torch.log(torch.tensor([100]))`. -/
noncomputable def clamp_max : ℝ := Real.log 100

/-- `torch.clamp(x, lo, hi) = min(max(x, lo), hi)`. -/
noncomputable def torchClamp (x lo hi : ℝ) : ℝ := min (max x lo) hi

/-- Modelled from the spec (§4.4): `contrastive_loss` (inherited from
`ContrastiveModel`, not under `src/`) reads the stored temperature
(`self.logit_scale`, line 33) through `clamp(·, clamp_min, clamp_max)` and
exponentiates it to obtain the similarity scale. -/
noncomputable def effectiveScale (temperature : ℝ) : ℝ :=
  Real.exp (torchClamp temperature clamp_min clamp_max)

/-! ## Helper lemmas: the chunking recursion -/

theorem chunkFuel_flatten (m : ℕ) (hm : 0 < m) (fuel : ℕ) (l : List α)
    (h : l.length ≤ fuel) : (chunkFuel m fuel l).flatten = l := by
  induction fuel generalizing l with
  | zero =>
    have : l = [] := List.length_eq_zero.mp (Nat.le_zero.mp h)
    subst this; simp [chunkFuel]
  | succ fuel ih =>
    cases l with
    | nil => simp [chunkFuel]
    | cons x xs =>
      rw [chunkFuel, List.flatten_cons, ih]
      · obtain ⟨m, rfl⟩ := Nat.exists_eq_succ_of_ne_zero hm.ne'
        simp only [Nat.succ_sub_one, List.take_succ_cons, List.cons_append]
        rw [List.take_append_drop]
      · simp only [List.length_drop]
        simp only [List.length_cons] at h
        omega

theorem chunkFuel_mem_length_le (m fuel : ℕ) (l : List α) (g : List α)
    (hg : g ∈ chunkFuel m fuel l) : g.length ≤ m := by
  induction fuel generalizing l with
  | zero => cases l <;> simp [chunkFuel] at hg
  | succ fuel ih =>
    cases l with
    | nil => simp [chunkFuel] at hg
    | cons x xs =>
      rw [chunkFuel, List.mem_cons] at hg
      rcases hg with rfl | hg
      · simp [List.length_take]
      · exact ih _ hg

theorem chunkFuel_nil (m fuel : ℕ) : chunkFuel m fuel ([] : List α) = [] := by
  cases fuel <;> rfl

theorem chunkFuel_dropLast_length (m : ℕ) (hm : 0 < m) (fuel : ℕ) (l : List α)
    (h : l.length ≤ fuel) (g : List α)
    (hg : g ∈ (chunkFuel m fuel l).dropLast) : g.length = m := by
  induction fuel generalizing l with
  | zero =>
    have : l = [] := List.length_eq_zero.mp (Nat.le_zero.mp h)
    subst this; simp [chunkFuel] at hg
  | succ fuel ih =>
    cases l with
    | nil => simp [chunkFuel] at hg
    | cons x xs =>
      rw [chunkFuel] at hg
      rcases hrec : chunkFuel m fuel (xs.drop (m - 1)) with _ | ⟨c, cs⟩
      · rw [hrec] at hg; simp at hg
      · rw [hrec, List.dropLast_cons_of_ne_nil (by simp)] at hg
        rcases List.mem_cons.mp hg with rfl | hg'
        · have hne : xs.drop (m - 1) ≠ [] := by
            intro hnil
            rw [hnil, chunkFuel_nil] at hrec
            exact List.noConfusion hrec
          have hlen : m - 1 < xs.length := by
            by_contra hcon
            exact hne (List.drop_eq_nil_of_le (by omega))
          simp only [List.length_take, List.length_cons]
          omega
        · refine ih (xs.drop (m - 1)) ?_ ?_
          · simp only [List.length_drop]
            simp only [List.length_cons] at h
            omega
          · rw [hrec]; exact hg'

theorem generate_indices_flatten (n m : ℕ) (hm : 0 < m) :
    (generate_indices n m).flatten = List.range n := by
  unfold generate_indices chunkList
  exact chunkFuel_flatten m hm _ _ le_rfl

theorem generate_indices_size_le (n m : ℕ) (g : List ℕ)
    (hg : g ∈ generate_indices n m) : g.length ≤ m :=
  chunkFuel_mem_length_le m _ _ g hg

theorem generate_indices_dropLast_size (n m : ℕ) (hm : 0 < m) (g : List ℕ)
    (hg : g ∈ (generate_indices n m).dropLast) : g.length = m :=
  chunkFuel_dropLast_length m hm _ _ le_rfl g hg

/-! ## Helper lemmas: `listMapO`, `gather` and `mkMbs` -/

theorem listMapO_some_length (f : α → Option γ) (l : List α) (ys : List γ)
    (h : listMapO f l = some ys) : ys.length = l.length := by
  induction l generalizing ys with
  | nil =>
    simp only [listMapO, Option.some.injEq] at h
    subst h; simp
  | cons x xs ih =>
    simp only [listMapO, Option.pure_def, Option.bind_eq_bind, Option.bind_eq_some,
      Option.some.injEq] at h
    obtain ⟨y, hy, ys', hys', rfl⟩ := h
    simp [ih ys' hys']

theorem listMapO_some_getElem? (f : α → Option γ) (l : List α) (ys : List γ)
    (h : listMapO f l = some ys) (i : ℕ) : ys[i]? = l[i]?.bind f := by
  induction l generalizing ys i with
  | nil =>
    simp only [listMapO, Option.some.injEq] at h
    subst h; simp
  | cons x xs ih =>
    simp only [listMapO, Option.pure_def, Option.bind_eq_bind, Option.bind_eq_some,
      Option.some.injEq] at h
    obtain ⟨y, hy, ys', hys', rfl⟩ := h
    cases i with
    | zero => simpa using hy.symm
    | succ n => simpa using ih ys' hys' n

theorem listMapO_eq_none_iff (f : α → Option γ) (l : List α) :
    listMapO f l = none ↔ ∃ x ∈ l, f x = none := by
  induction l with
  | nil => simp [listMapO]
  | cons x xs ih =>
    simp only [listMapO, Option.bind_eq_bind, List.mem_cons]
    constructor
    · intro h
      cases hx : f x with
      | none => exact ⟨x, Or.inl rfl, hx⟩
      | some y =>
        rw [hx] at h
        simp only [Option.some_bind] at h
        cases hxs : listMapO f xs with
        | none =>
          obtain ⟨z, hz, hfz⟩ := ih.mp hxs
          exact ⟨z, Or.inr hz, hfz⟩
        | some ys => rw [hxs] at h; simp at h
    · rintro ⟨z, hz | hz, hfz⟩
      · subst hz; simp [hfz]
      · cases hx : f x with
        | none => simp
        | some y =>
          simp only [Option.some_bind]
          rw [ih.mpr ⟨z, hz, hfz⟩]
          simp

theorem mkMbs_length (b : Batch τ) (inds : List (List ℕ))
    (mbs : List (List τ × List τ)) (h : mkMbs b inds = some mbs) :
    mbs.length = inds.length :=
  listMapO_some_length _ _ _ h

theorem mkMbs_getElem? (b : Batch τ) (inds : List (List ℕ))
    (mbs : List (List τ × List τ)) (h : mkMbs b inds = some mbs) (i : ℕ) :
    mbs[i]? = inds[i]?.bind fun g =>
      (gather b.tokens g).bind fun t =>
        (gather b.mask g).bind fun mk => some (t, mk) :=
  listMapO_some_getElem? _ _ _ h i

/-! ## Helper lemmas: the two sweeps -/

theorem passSweep_length (cl : List β → List β → V × V)
    (encPassGrad : List τ → List τ → List β) (pass_encs rev_encs : List (List β))
    (pass_mbs : List (List τ × List τ)) :
    (passSweep cl encPassGrad pass_encs rev_encs pass_mbs).length = pass_mbs.length := by
  simp [passSweep]

theorem revSweep_length (cl : List β → List β → V × V)
    (encRevGrad : List τ → List τ → List β) (pass_encs rev_encs : List (List β))
    (rev_mbs : List (List τ × List τ)) :
    (revSweep cl encRevGrad pass_encs rev_encs rev_mbs).length = rev_mbs.length := by
  simp [revSweep]

theorem passSweep_getElem? (cl : List β → List β → V × V)
    (encPassGrad : List τ → List τ → List β) (pass_encs rev_encs : List (List β))
    (pass_mbs : List (List τ × List τ)) (i : ℕ) :
    (passSweep cl encPassGrad pass_encs rev_encs pass_mbs)[i]?
      = pass_mbs[i]?.map fun mb =>
          cl ((pass_encs.set i (encPassGrad mb.1 mb.2)).flatten) rev_encs.flatten := by
  cases h : pass_mbs[i]? <;>
    simp [passSweep, List.getElem?_map, List.getElem?_enum, h]

theorem revSweep_getElem? (cl : List β → List β → V × V)
    (encRevGrad : List τ → List τ → List β) (pass_encs rev_encs : List (List β))
    (rev_mbs : List (List τ × List τ)) (i : ℕ) :
    (revSweep cl encRevGrad pass_encs rev_encs rev_mbs)[i]?
      = rev_mbs[i]?.map fun mb =>
          cl pass_encs.flatten ((rev_encs.set i (encRevGrad mb.1 mb.2)).flatten) := by
  cases h : rev_mbs[i]? <;>
    simp [revSweep, List.getElem?_map, List.getElem?_enum, h]

/-! ## Helper lemmas: the effect trace -/

theorem mem_sweepEvents (e : Event) (t : Tower) (k : ℕ) :
    e ∈ sweepEvents t k
      ↔ ∃ i, i < k ∧ (e = Event.lossComputed t i ∨ e = Event.backward t i) := by
  simp only [sweepEvents, List.mem_flatMap, List.mem_range, List.mem_cons,
    List.mem_singleton, List.not_mem_nil, or_false]

theorem zeroGrad_not_mem_sweepEvents (t : Tower) (k : ℕ) :
    Event.zeroGrad ∉ sweepEvents t k := by
  rw [mem_sweepEvents]
  rintro ⟨i, _, h | h⟩ <;> exact Event.noConfusion h

theorem scalerStep_not_mem_sweepEvents (t : Tower) (k : ℕ) :
    Event.scalerStep ∉ sweepEvents t k := by
  rw [mem_sweepEvents]
  rintro ⟨i, _, h | h⟩ <;> exact Event.noConfusion h

theorem scalerUpdate_not_mem_sweepEvents (t : Tower) (k : ℕ) :
    Event.scalerUpdate ∉ sweepEvents t k := by
  rw [mem_sweepEvents]
  rintro ⟨i, _, h | h⟩ <;> exact Event.noConfusion h

/-! ## Helper lemmas: unfolding `train_step` -/

theorem train_step_fst_of_some (mc : ModelConfig) (cl : List β → List β → V × V)
    (e1 e2 e3 e4 : List τ → List τ → List β) (passages reviews : Batch τ)
    (config : TrainConfig) (pmbs rmbs : List (List τ × List τ))
    (hp : mkMbs passages (generate_indices passages.tokens.length config.microbatch_size)
      = some pmbs)
    (hr : mkMbs reviews (generate_indices passages.tokens.length config.microbatch_size)
      = some rmbs) :
    (train_step mc cl e1 e2 e3 e4 passages reviews config).fst
      = Event.cacheBuilt :: Event.zeroGrad ::
          (sweepEvents Tower.pass pmbs.length ++ sweepEvents Tower.rev rmbs.length ++
            (if mc.grad_clip ≠ -1 then [Event.unscale, Event.clipGradNorm config.grad_clip]
             else []) ++
            [Event.scalerStep, Event.scalerUpdate]) := by
  simp only [train_step]
  rw [hp, hr]
  rcases hpl : (passSweep cl e3 (calculate_embeddings e1 pmbs)
      (calculate_embeddings e2 rmbs) pmbs).getLast? with _ | pLast <;>
    rcases hrl : (revSweep cl e4 (calculate_embeddings e1 pmbs)
        (calculate_embeddings e2 rmbs) rmbs).getLast? with _ | rLast <;>
      simp [hpl, hrl]

theorem train_step_snd_of_last (mc : ModelConfig) (cl : List β → List β → V × V)
    (e1 e2 e3 e4 : List τ → List τ → List β) (passages reviews : Batch τ)
    (config : TrainConfig) (pmbs rmbs : List (List τ × List τ))
    (hp : mkMbs passages (generate_indices passages.tokens.length config.microbatch_size)
      = some pmbs)
    (hr : mkMbs reviews (generate_indices passages.tokens.length config.microbatch_size)
      = some rmbs)
    (pLast rLast : V × V)
    (hpl : (passSweep cl e3 (calculate_embeddings e1 pmbs)
      (calculate_embeddings e2 rmbs) pmbs).getLast? = some pLast)
    (hrl : (revSweep cl e4 (calculate_embeddings e1 pmbs)
      (calculate_embeddings e2 rmbs) rmbs).getLast? = some rLast) :
    (train_step mc cl e1 e2 e3 e4 passages reviews config).snd
      = Except.ok ⟨rLast.1, rLast.1, pLast.2⟩ := by
  simp only [train_step]
  rw [hp, hr]
  simp [hpl, hrl]

/-! ## Claim C4 — the microbatch partitioner -/

/-- Claim C4: for every batch size `N` and microbatch size `M > 0` the
partitioner produces index groups that cover `[0, N)` exactly once each in
ascending order (their concatenation in group order is literally
`List.range N`), each group of size at most `M` with every non-final group
of size exactly `M`; and within one training step the identical group
sequence is applied to both towers, so group `i` of each tower is gathered
from the same example positions `(generate_indices N M)[i]`. -/
theorem partitioner_covers_and_aligns (n m : ℕ) (hm : 0 < m) :
    (generate_indices n m).flatten = List.range n
    ∧ (∀ g ∈ generate_indices n m, g.length ≤ m)
    ∧ (∀ g ∈ (generate_indices n m).dropLast, g.length = m)
    ∧ ∀ (τ : Type) (passages reviews : Batch τ) (pmbs rmbs : List (List τ × List τ)),
        mkMbs passages (generate_indices n m) = some pmbs →
        mkMbs reviews (generate_indices n m) = some rmbs →
        pmbs.length = rmbs.length
        ∧ ∀ i : ℕ,
            pmbs[i]? = ((generate_indices n m)[i]?.bind fun g =>
              (gather passages.tokens g).bind fun t =>
                (gather passages.mask g).bind fun mk => some (t, mk))
            ∧ rmbs[i]? = ((generate_indices n m)[i]?.bind fun g =>
              (gather reviews.tokens g).bind fun t =>
                (gather reviews.mask g).bind fun mk => some (t, mk)) := by
  refine ⟨generate_indices_flatten n m hm, generate_indices_size_le n m,
    generate_indices_dropLast_size n m hm, ?_⟩
  intro τ passages reviews pmbs rmbs hp hr
  refine ⟨by rw [mkMbs_length _ _ _ hp, mkMbs_length _ _ _ hr], ?_⟩
  intro i
  exact ⟨mkMbs_getElem? _ _ _ hp i, mkMbs_getElem? _ _ _ hr i⟩

/-- Witness for C4 at `N = 5`, `M = 2` (groups `[0,1] [2,3] [4]`). -/
theorem partitioner_covers_and_aligns_witness :
    0 < 2
    ∧ ((generate_indices 5 2).flatten = List.range 5
      ∧ (∀ g ∈ generate_indices 5 2, g.length ≤ 2)
      ∧ (∀ g ∈ (generate_indices 5 2).dropLast, g.length = 2)
      ∧ ∀ (τ : Type) (passages reviews : Batch τ) (pmbs rmbs : List (List τ × List τ)),
          mkMbs passages (generate_indices 5 2) = some pmbs →
          mkMbs reviews (generate_indices 5 2) = some rmbs →
          pmbs.length = rmbs.length
          ∧ ∀ i : ℕ,
              pmbs[i]? = ((generate_indices 5 2)[i]?.bind fun g =>
                (gather passages.tokens g).bind fun t =>
                  (gather passages.mask g).bind fun mk => some (t, mk))
              ∧ rmbs[i]? = ((generate_indices 5 2)[i]?.bind fun g =>
                (gather reviews.tokens g).bind fun t =>
                  (gather reviews.mask g).bind fun mk => some (t, mk))) :=
  ⟨by decide, partitioner_covers_and_aligns 5 2 (by decide)⟩

/-! ## Claim C2 — fresh working copy per iteration -/

/-- Claim C2: in every iteration `i` of each sweep the working cache handed
to the loss is the detached cache with only position `i` replaced by the
with-grad embedding — it is built from the original cache, not from a
previous iteration's working copy, so substitutions do not accumulate — all
other positions still hold the detached values, and the review sweep pairs
against the unmodified detached passage cache (`pass_encs.flatten` itself). -/
theorem sweep_uses_fresh_cache_copy
    {τ β V : Type} (cl : List β → List β → V × V)
    (encPassGrad encRevGrad : List τ → List τ → List β)
    (pass_encs rev_encs : List (List β))
    (pass_mbs rev_mbs : List (List τ × List τ))
    (i : ℕ) (pmb rmb : List τ × List τ)
    (hpi : pass_mbs[i]? = some pmb) (hri : rev_mbs[i]? = some rmb) :
    (passSweep cl encPassGrad pass_encs rev_encs pass_mbs)[i]?
      = some (cl ((pass_encs.set i (encPassGrad pmb.1 pmb.2)).flatten) rev_encs.flatten)
    ∧ (∀ j, j ≠ i → (pass_encs.set i (encPassGrad pmb.1 pmb.2))[j]? = pass_encs[j]?)
    ∧ (revSweep cl encRevGrad pass_encs rev_encs rev_mbs)[i]?
      = some (cl pass_encs.flatten ((rev_encs.set i (encRevGrad rmb.1 rmb.2)).flatten))
    ∧ (∀ j, j ≠ i → (rev_encs.set i (encRevGrad rmb.1 rmb.2))[j]? = rev_encs[j]?) := by
  refine ⟨?_, ?_, ?_, ?_⟩
  · rw [passSweep_getElem?, hpi]; rfl
  · intro j hj
    exact List.getElem?_set_ne (Ne.symm hj)
  · rw [revSweep_getElem?, hri]; rfl
  · intro j hj
    exact List.getElem?_set_ne (Ne.symm hj)

/-- Witness for C2 on a concrete two-microbatch configuration, iteration 0. -/
theorem sweep_uses_fresh_cache_copy_witness :
    ((passSweep natCL natEnc [[1], [2]] [[3], [4]] [([5], [0]), ([6], [1])])[0]?
      = some (natCL (([[1], [2]].set 0 (natEnc [5] [0])).flatten) [[3], [4]].flatten))
    ∧ (∀ j, j ≠ 0 → (([[1], [2]] : List (List ℕ)).set 0 (natEnc [5] [0]))[j]? = [[1], [2]][j]?)
    ∧ ((revSweep natCL natEnc [[1], [2]] [[3], [4]] [([7], [0]), ([8], [1])])[0]?
      = some (natCL [[1], [2]].flatten (([[3], [4]].set 0 (natEnc [7] [0])).flatten)))
    ∧ (∀ j, j ≠ 0 → (([[3], [4]] : List (List ℕ)).set 0 (natEnc [7] [0]))[j]? = [[3], [4]][j]?) :=
  sweep_uses_fresh_cache_copy natCL natEnc natEnc [[1], [2]] [[3], [4]]
    [([5], [0]), ([6], [1])] [([7], [0]), ([8], [1])] 0 ([5], [0]) ([7], [0])
    (by decide) (by decide)

/-! ## Claim C5 — the returned diagnostics -/

/-- Claim C5: whenever the step completes, the returned mapping reports the
last-computed contrastive loss — the final review-sweep call's loss — under
both the contrastive-loss key and the train-loss key (the same scalar
twice), together with the forward accuracy of the passage sweep's final
call; the review sweep's accuracy component is not part of the dictionary. -/
theorem diagnostics_from_last_iterations
    {τ β V : Type} (mc : ModelConfig) (cl : List β → List β → V × V)
    (e1 e2 e3 e4 : List τ → List τ → List β) (passages reviews : Batch τ)
    (config : TrainConfig) (pmbs rmbs : List (List τ × List τ))
    (hp : mkMbs passages (generate_indices passages.tokens.length config.microbatch_size)
      = some pmbs)
    (hr : mkMbs reviews (generate_indices passages.tokens.length config.microbatch_size)
      = some rmbs)
    (hne : pmbs ≠ []) :
    ∃ pLast rLast : V × V,
      (passSweep cl e3 (calculate_embeddings e1 pmbs)
        (calculate_embeddings e2 rmbs) pmbs).getLast? = some pLast
      ∧ (revSweep cl e4 (calculate_embeddings e1 pmbs)
        (calculate_embeddings e2 rmbs) rmbs).getLast? = some rLast
      ∧ (train_step mc cl e1 e2 e3 e4 passages reviews config).snd
          = Except.ok ⟨rLast.1, rLast.1, pLast.2⟩ := by
  have hlen : rmbs.length = pmbs.length := by
    rw [mkMbs_length _ _ _ hp, mkMbs_length _ _ _ hr]
  have hp1 : passSweep cl e3 (calculate_embeddings e1 pmbs)
      (calculate_embeddings e2 rmbs) pmbs ≠ [] := by
    intro h0
    have hl := passSweep_length cl e3 (calculate_embeddings e1 pmbs)
      (calculate_embeddings e2 rmbs) pmbs
    rw [h0] at hl
    exact hne (List.length_eq_zero.mp hl.symm)
  have hr1 : revSweep cl e4 (calculate_embeddings e1 pmbs)
      (calculate_embeddings e2 rmbs) rmbs ≠ [] := by
    intro h0
    have hl := revSweep_length cl e4 (calculate_embeddings e1 pmbs)
      (calculate_embeddings e2 rmbs) rmbs
    rw [h0, hlen] at hl
    exact hne (List.length_eq_zero.mp hl.symm)
  obtain ⟨pLast, hpl⟩ := Option.isSome_iff_exists.mp (List.getLast?_isSome.mpr hp1)
  obtain ⟨rLast, hrl⟩ := Option.isSome_iff_exists.mp (List.getLast?_isSome.mpr hr1)
  exact ⟨pLast, rLast, hpl, hrl,
    train_step_snd_of_last mc cl e1 e2 e3 e4 passages reviews config
      pmbs rmbs hp hr pLast rLast hpl hrl⟩

/-- Witness for C5 on a concrete two-example, microbatch-size-1 run. -/
theorem diagnostics_from_last_iterations_witness :
    ∃ pLast rLast : ℕ × ℕ,
      (passSweep natCL natEnc (calculate_embeddings natEnc [([10], [0]), ([11], [1])])
        (calculate_embeddings natEnc [([20], [2]), ([21], [3])])
        [([10], [0]), ([11], [1])]).getLast? = some pLast
      ∧ (revSweep natCL natEnc (calculate_embeddings natEnc [([10], [0]), ([11], [1])])
        (calculate_embeddings natEnc [([20], [2]), ([21], [3])])
        [([20], [2]), ([21], [3])]).getLast? = some rLast
      ∧ (train_step mcSentinel natCL natEnc natEnc natEnc natEnc passB2 revB2
          tcSentinel).snd = Except.ok ⟨rLast.1, rLast.1, pLast.2⟩ :=
  diagnostics_from_last_iterations mcSentinel natCL natEnc natEnc natEnc natEnc
    passB2 revB2 tcSentinel [([10], [0]), ([11], [1])] [([20], [2]), ([21], [3])]
    (by decide) (by decide) (by decide)

/-! ## Claim C7 — when the gradients are zeroed -/

/-- Claim C7 counterexample: zeroing the gradients is *not* the first action
of the step — on a concrete run the first recorded effect is the no-grad
cache build (line 59 precedes `opt.zero_grad()` at line 61). -/
theorem zeroGrad_not_first_action :
    ¬ (train_step mcSentinel natCL natEnc natEnc natEnc natEnc passB2 revB2
        tcSentinel).fst.head? = some Event.zeroGrad := by
  decide

/-- Claim C7 amended: each training step zeroes the parameter gradients
exactly once — immediately *after* the no-grad embedding caches are built
but before any loss computation or backward call — and no further zeroing
happens within the step, so gradients are only accumulated into until the
clip/step logic reads them. -/
theorem zeroGrad_once_before_backward
    {τ β V : Type} (mc : ModelConfig) (cl : List β → List β → V × V)
    (e1 e2 e3 e4 : List τ → List τ → List β) (passages reviews : Batch τ)
    (config : TrainConfig) (pmbs rmbs : List (List τ × List τ))
    (hp : mkMbs passages (generate_indices passages.tokens.length config.microbatch_size)
      = some pmbs)
    (hr : mkMbs reviews (generate_indices passages.tokens.length config.microbatch_size)
      = some rmbs) :
    (train_step mc cl e1 e2 e3 e4 passages reviews config).fst.take 2
      = [Event.cacheBuilt, Event.zeroGrad]
    ∧ ((train_step mc cl e1 e2 e3 e4 passages reviews config).fst.drop 2).count
        Event.zeroGrad = 0 := by
  rw [train_step_fst_of_some mc cl e1 e2 e3 e4 passages reviews config pmbs rmbs hp hr]
  refine ⟨rfl, ?_⟩
  simp only [List.drop_succ_cons, List.drop_zero]
  rw [List.count_eq_zero]
  intro hmem
  rcases List.mem_append.mp hmem with hmem' | hlast
  · rcases List.mem_append.mp hmem' with hmem'' | hclip
    · rcases List.mem_append.mp hmem'' with hsw | hsw
      · exact zeroGrad_not_mem_sweepEvents Tower.pass pmbs.length hsw
      · exact zeroGrad_not_mem_sweepEvents Tower.rev rmbs.length hsw
    · by_cases hmc : mc.grad_clip = -1 <;> simp [hmc] at hclip
  · simp at hlast

/-- Witness for C7 (amended) on a concrete two-example run. -/
theorem zeroGrad_once_before_backward_witness :
    (train_step mcSentinel natCL natEnc natEnc natEnc natEnc passB2 revB2
        tcSentinel).fst.take 2 = [Event.cacheBuilt, Event.zeroGrad]
    ∧ ((train_step mcSentinel natCL natEnc natEnc natEnc natEnc passB2 revB2
        tcSentinel).fst.drop 2).count Event.zeroGrad = 0 :=
  zeroGrad_once_before_backward mcSentinel natCL natEnc natEnc natEnc natEnc
    passB2 revB2 tcSentinel [([10], [0]), ([11], [1])] [([20], [2]), ([21], [3])]
    (by decide) (by decide)

/-! ## Claim C10 — the scaler step and update are unconditional -/

/-- Claim C10: on every call that passes the slicing stage (the only point
that can raise before the optimizer-step line), `scaler.step(opt)` and
`scaler.update()` each execute exactly once, unconditionally — they are the
final two effects of the trace, even when the partition is empty (so no
backward ever ran and the call later fails building the return value) and
regardless of the clipping gate. -/
theorem scaler_step_update_always_run
    {τ β V : Type} (mc : ModelConfig) (cl : List β → List β → V × V)
    (e1 e2 e3 e4 : List τ → List τ → List β) (passages reviews : Batch τ)
    (config : TrainConfig) (pmbs rmbs : List (List τ × List τ))
    (hp : mkMbs passages (generate_indices passages.tokens.length config.microbatch_size)
      = some pmbs)
    (hr : mkMbs reviews (generate_indices passages.tokens.length config.microbatch_size)
      = some rmbs) :
    (train_step mc cl e1 e2 e3 e4 passages reviews config).fst.count
        Event.scalerStep = 1
    ∧ (train_step mc cl e1 e2 e3 e4 passages reviews config).fst.count
        Event.scalerUpdate = 1
    ∧ ∃ pre, (train_step mc cl e1 e2 e3 e4 passages reviews config).fst
        = pre ++ [Event.scalerStep, Event.scalerUpdate] := by
  rw [train_step_fst_of_some mc cl e1 e2 e3 e4 passages reviews config pmbs rmbs hp hr]
  refine ⟨?_, ?_, ?_⟩
  · rw [List.count_cons_of_ne (by simp), List.count_cons_of_ne (by simp),
      List.count_append, List.count_append, List.count_append,
      List.count_eq_zero.mpr (scalerStep_not_mem_sweepEvents Tower.pass pmbs.length),
      List.count_eq_zero.mpr (scalerStep_not_mem_sweepEvents Tower.rev rmbs.length)]
    by_cases hmc : mc.grad_clip = -1 <;> simp [hmc]
  · rw [List.count_cons_of_ne (by simp), List.count_cons_of_ne (by simp),
      List.count_append, List.count_append, List.count_append,
      List.count_eq_zero.mpr (scalerUpdate_not_mem_sweepEvents Tower.pass pmbs.length),
      List.count_eq_zero.mpr (scalerUpdate_not_mem_sweepEvents Tower.rev rmbs.length)]
    by_cases hmc : mc.grad_clip = -1 <;> simp [hmc]
  · refine ⟨Event.cacheBuilt :: Event.zeroGrad ::
      (sweepEvents Tower.pass pmbs.length ++ sweepEvents Tower.rev rmbs.length ++
        (if mc.grad_clip ≠ -1 then [Event.unscale, Event.clipGradNorm config.grad_clip]
         else [])), ?_⟩
    simp [List.append_assoc]

/-- Witness for C10 on a concrete two-example run with clipping gate open. -/
theorem scaler_step_update_always_run_witness :
    (train_step mcEnabled natCL natEnc natEnc natEnc natEnc passB2 revB2
        tcEnabled).fst.count Event.scalerStep = 1
    ∧ (train_step mcEnabled natCL natEnc natEnc natEnc natEnc passB2 revB2
        tcEnabled).fst.count Event.scalerUpdate = 1
    ∧ ∃ pre, (train_step mcEnabled natCL natEnc natEnc natEnc natEnc passB2 revB2
        tcEnabled).fst = pre ++ [Event.scalerStep, Event.scalerUpdate] :=
  scaler_step_update_always_run mcEnabled natCL natEnc natEnc natEnc natEnc
    passB2 revB2 tcEnabled [([10], [0]), ([11], [1])] [([20], [2]), ([21], [3])]
    (by decide) (by decide)

/-! ## Claim C3 — which config gates the clipping -/

/-- Claim C3 evaluated at the failing inputs: line 87 gates the clipping on
`self.config.grad_clip` — the *model* config — while line 89 clips to
`config.grad_clip` — the *train* config.  With the model config at the
sentinel `-1` and the train config's threshold at `2`, unscale and clip are
skipped entirely (count `0`) although the train config enables clipping, and
the optimizer still steps; conversely, with the model config at `1` and the
train config at the sentinel, the code unscales and "clips" to the sentinel
threshold `-1` although the train config disables clipping. -/
theorem clip_gate_reads_model_config :
    ((train_step mcSentinel natCL natEnc natEnc natEnc natEnc passB2 revB2
        tcEnabled).fst.count Event.unscale = 0
      ∧ (train_step mcSentinel natCL natEnc natEnc natEnc natEnc passB2 revB2
        tcEnabled).fst.count (Event.clipGradNorm 2) = 0
      ∧ (train_step mcSentinel natCL natEnc natEnc natEnc natEnc passB2 revB2
        tcEnabled).fst.count Event.scalerStep = 1)
    ∧ ((train_step mcEnabled natCL natEnc natEnc natEnc natEnc passB2 revB2
        tcSentinel).fst.count Event.unscale = 1
      ∧ (train_step mcEnabled natCL natEnc natEnc natEnc natEnc passB2 revB2
        tcSentinel).fst.count (Event.clipGradNorm (-1)) = 1) := by
  decide

/-! ## Claim C8 — mismatched example counts -/

/-- Claim C8 counterexample: a review batch with more examples (2) than the
passage batch (1) is a mismatched pair, yet nothing surfaces it — the step
completes normally, the optimizer steps and diagnostics are returned, the
surplus review silently ignored (the index groups are built from the
passage count alone). -/
theorem oversized_review_batch_completes :
    (train_step mcSentinel natCL natEnc natEnc natEnc natEnc passB1 revB2
        tcSentinel).snd = Except.ok ⟨1, 1, 1⟩
    ∧ (train_step mcSentinel natCL natEnc natEnc natEnc natEnc passB1 revB2
        tcSentinel).fst.count Event.scalerStep = 1 :=
  ⟨rfl, rfl⟩

/-- Claim C8 amended: only a review batch with *fewer* examples than the
passage batch is surfaced: some index group then contains an out-of-range
review position, the backend's gather raises immediately during slicing, no
effect is recorded (in particular no optimizer step) and no diagnostics are
returned. -/
theorem undersized_review_batch_aborts
    {τ β V : Type} (mc : ModelConfig) (cl : List β → List β → V × V)
    (e1 e2 e3 e4 : List τ → List τ → List β) (passages reviews : Batch τ)
    (config : TrainConfig) (hm : 0 < config.microbatch_size)
    (hlt : reviews.tokens.length < passages.tokens.length) :
    train_step mc cl e1 e2 e3 e4 passages reviews config
      = ([], Except.error StepError.indexError) := by
  have hmem : reviews.tokens.length
      ∈ (generate_indices passages.tokens.length config.microbatch_size).flatten := by
    rw [generate_indices_flatten _ _ hm]
    exact List.mem_range.mpr hlt
  obtain ⟨g, hg, hmemg⟩ := List.mem_flatten.mp hmem
  have hgather : gather reviews.tokens g = none := by
    rw [gather, listMapO_eq_none_iff]
    exact ⟨reviews.tokens.length, hmemg, List.getElem?_eq_none le_rfl⟩
  have hmk : mkMbs reviews (generate_indices passages.tokens.length config.microbatch_size)
      = none := by
    rw [mkMbs, listMapO_eq_none_iff]
    refine ⟨g, hg, ?_⟩
    simp [hgather]
  simp only [train_step]
  rw [hmk]
  cases mkMbs passages (generate_indices passages.tokens.length config.microbatch_size) <;>
    rfl

/-- Witness for C8 (amended): passages with 2 examples, reviews with 1. -/
theorem undersized_review_batch_aborts_witness :
    0 < tcSentinel.microbatch_size
    ∧ revB1.tokens.length < passB2.tokens.length
    ∧ train_step mcSentinel natCL natEnc natEnc natEnc natEnc passB2 revB1 tcSentinel
        = ([], Except.error StepError.indexError) :=
  ⟨by decide, by decide,
    undersized_review_batch_aborts mcSentinel natCL natEnc natEnc natEnc natEnc
      passB2 revB1 tcSentinel (by decide) (by decide)⟩

/-! ## Claim C9 — the empty batch -/

/-- Claim C9 counterexample: at `N = 0` the partition is empty and the loop
bodies never run, so *no* loss computation ever happens — the empty
concatenation is never reached.  The failure is the unbound-local error
raised while building the return dictionary (lines 93–97), and it happens
only after `scaler.step` and `scaler.update` already executed. -/
theorem empty_batch_failure_site :
    train_step mcSentinel natCL natEnc natEnc natEnc natEnc emptyB emptyB tcSentinel
      = ([Event.cacheBuilt, Event.zeroGrad, Event.scalerStep, Event.scalerUpdate],
          Except.error StepError.unboundLocalError)
    ∧ (train_step mcSentinel natCL natEnc natEnc natEnc natEnc emptyB emptyB
        tcSentinel).fst.countP (fun e =>
          match e with
          | Event.lossComputed _ _ => true
          | _ => false) = 0 :=
  ⟨rfl, rfl⟩

/-- Claim C9 amended: when `N = 0` the partitioner returns the empty
partition, the training step performs no per-microbatch loss computation and
no backward at all, the scaler step and update still execute, and the step
fails with the unbound-local error while building the returned diagnostics
(the loss local was never bound) rather than inside any loss computation —
a caller precondition violation that is not handled internally. -/
theorem empty_batch_fails_at_return
    {τ β V : Type} (mc : ModelConfig) (cl : List β → List β → V × V)
    (e1 e2 e3 e4 : List τ → List τ → List β) (passages reviews : Batch τ)
    (config : TrainConfig) (h0 : passages.tokens.length = 0) :
    generate_indices passages.tokens.length config.microbatch_size = []
    ∧ (train_step mc cl e1 e2 e3 e4 passages reviews config).snd
        = Except.error StepError.unboundLocalError
    ∧ (∀ t i, Event.lossComputed t i
          ∉ (train_step mc cl e1 e2 e3 e4 passages reviews config).fst
        ∧ Event.backward t i
          ∉ (train_step mc cl e1 e2 e3 e4 passages reviews config).fst)
    ∧ Event.scalerStep ∈ (train_step mc cl e1 e2 e3 e4 passages reviews config).fst
    ∧ Event.scalerUpdate ∈ (train_step mc cl e1 e2 e3 e4 passages reviews config).fst := by
  have hinds : generate_indices passages.tokens.length config.microbatch_size = [] := by
    rw [h0]
    rfl
  have hp : mkMbs passages (generate_indices passages.tokens.length config.microbatch_size)
      = some [] := by rw [hinds]; rfl
  have hr : mkMbs reviews (generate_indices passages.tokens.length config.microbatch_size)
      = some [] := by rw [hinds]; rfl
  have hfst := train_step_fst_of_some mc cl e1 e2 e3 e4 passages reviews config [] [] hp hr
  have hsnd : (train_step mc cl e1 e2 e3 e4 passages reviews config).snd
      = Except.error StepError.unboundLocalError := by
    simp only [train_step]
    rw [hp, hr]
    rfl
  refine ⟨hinds, hsnd, ?_, ?_, ?_⟩
  · intro t i
    rw [hfst]
    by_cases hmc : mc.grad_clip = -1 <;>
      simp [hmc, sweepEvents]
  · rw [hfst]; simp
  · rw [hfst]; simp

/-- Witness for C9 (amended) on the concrete empty batch. -/
theorem empty_batch_fails_at_return_witness :
    emptyB.tokens.length = 0
    ∧ (generate_indices emptyB.tokens.length tcEnabled.microbatch_size = []
      ∧ (train_step mcEnabled natCL natEnc natEnc natEnc natEnc emptyB emptyB
          tcEnabled).snd = Except.error StepError.unboundLocalError
      ∧ (∀ t i, Event.lossComputed t i
            ∉ (train_step mcEnabled natCL natEnc natEnc natEnc natEnc emptyB emptyB
              tcEnabled).fst
          ∧ Event.backward t i
            ∉ (train_step mcEnabled natCL natEnc natEnc natEnc natEnc emptyB emptyB
              tcEnabled).fst)
      ∧ Event.scalerStep
          ∈ (train_step mcEnabled natCL natEnc natEnc natEnc natEnc emptyB emptyB
            tcEnabled).fst
      ∧ Event.scalerUpdate
          ∈ (train_step mcEnabled natCL natEnc natEnc natEnc natEnc emptyB emptyB
            tcEnabled).fst) :=
  ⟨by decide,
    empty_batch_fails_at_return mcEnabled natCL natEnc natEnc natEnc natEnc
      emptyB emptyB tcEnabled (by decide)⟩

/-! ## Claim C1 — the gradient-cache equivalence law -/

theorem sweep_deriv {k : ℕ} {F : Type} [NormedAddCommGroup F] [NormedSpace ℝ F]
    (L : (Fin k → F) → (Fin k → F) → ℝ → ℝ) (fp : Fin k → ℝ → F)
    (fp' : Fin k → F) (θp τ0 : ℝ) (cR : Fin k → F)
    (Lp' : (Fin k → F) →L[ℝ] ℝ)
    (HLp : HasFDerivAt (fun p => L p cR τ0) Lp' (cacheOf fp θp))
    (hfp : ∀ i, HasDerivAt (fp i) (fp' i) θp) (i : Fin k) :
    HasDerivAt (sweepLossPass L fp (cacheOf fp θp) cR τ0 i)
      (Lp' (Pi.single i (fp' i))) θp := by
  have hcurve : HasDerivAt (fun θ => Function.update (cacheOf fp θp) i (fp i θ))
      (Pi.single i (fp' i)) θp := by
    rw [hasDerivAt_pi]
    intro j
    rcases eq_or_ne j i with rfl | hj
    · simp only [Function.update_same, Pi.single_eq_same]
      exact hfp j
    · simp only [Function.update_noteq hj, Pi.single_eq_of_ne hj]
      exact hasDerivAt_const _ _
  exact HasFDerivAt.comp_hasDerivAt_of_eq θp HLp hcurve
    (Function.update_eq_self i (cacheOf fp θp)).symm

theorem full_deriv {k : ℕ} {F : Type} [NormedAddCommGroup F] [NormedSpace ℝ F]
    (L : (Fin k → F) → (Fin k → F) → ℝ → ℝ) (fp : Fin k → ℝ → F)
    (fp' : Fin k → F) (θp τ0 : ℝ) (cR : Fin k → F)
    (Lp' : (Fin k → F) →L[ℝ] ℝ)
    (HLp : HasFDerivAt (fun p => L p cR τ0) Lp' (cacheOf fp θp))
    (hfp : ∀ i, HasDerivAt (fp i) (fp' i) θp) :
    HasDerivAt (fullLossPass L fp cR τ0) (∑ i : Fin k, Lp' (Pi.single i (fp' i))) θp := by
  have hsum : (∑ i : Fin k, Lp' (Pi.single i (fp' i))) = Lp' fp' := by
    rw [← map_sum]
    congr 1
    exact Finset.univ_sum_single fp'
  rw [hsum]
  have hcurve : HasDerivAt (fun θ => cacheOf fp θ) fp' θp := by
    rw [hasDerivAt_pi]
    exact hfp
  exact HLp.comp_hasDerivAt θp hcurve

/-- Claim C1 (amended): the gradient-cache equivalence holds for the tower
(encoder/projector) parameters, which reach the loss only through the
re-encoded microbatch's embedding: at any differentiability point, iteration
`i` of a sweep — differentiating only microbatch `i`'s embedding while every
other position holds its detached cached value — produces exactly that
microbatch's chain-rule contribution `Lp' (Pi.single i (fp' i))`, and the
full-batch loss with differentiation enabled everywhere has derivative equal
to the SUM of those per-microbatch contributions, for each tower.  (The
equality fails for the learned temperature, which enters every loss call
directly; see the counterexample.) -/
theorem gradCache_tower_grad_sum
    {k : ℕ} {F : Type} [NormedAddCommGroup F] [NormedSpace ℝ F]
    (L : (Fin k → F) → (Fin k → F) → ℝ → ℝ)
    (fp fr : Fin k → ℝ → F) (fp' fr' : Fin k → F) (θp θr τ0 : ℝ)
    (Lp' Lr' : (Fin k → F) →L[ℝ] ℝ)
    (HLp : HasFDerivAt (fun p => L p (cacheOf fr θr) τ0) Lp' (cacheOf fp θp))
    (HLr : HasFDerivAt (fun r => L (cacheOf fp θp) r τ0) Lr' (cacheOf fr θr))
    (hfp : ∀ i, HasDerivAt (fp i) (fp' i) θp)
    (hfr : ∀ i, HasDerivAt (fr i) (fr' i) θr) :
    (∀ i, HasDerivAt (sweepLossPass L fp (cacheOf fp θp) (cacheOf fr θr) τ0 i)
        (Lp' (Pi.single i (fp' i))) θp)
    ∧ HasDerivAt (fullLossPass L fp (cacheOf fr θr) τ0)
        (∑ i : Fin k, Lp' (Pi.single i (fp' i))) θp
    ∧ (∀ i, HasDerivAt (sweepLossRev L fr (cacheOf fp θp) (cacheOf fr θr) τ0 i)
        (Lr' (Pi.single i (fr' i))) θr)
    ∧ HasDerivAt (fullLossRev L fr (cacheOf fp θp) τ0)
        (∑ i : Fin k, Lr' (Pi.single i (fr' i))) θr := by
  exact ⟨fun i => sweep_deriv L fp fp' θp τ0 _ Lp' HLp hfp i,
    full_deriv L fp fp' θp τ0 _ Lp' HLp hfp,
    fun i => sweep_deriv (fun r p t => L p r t) fr fr' θr τ0 _ Lr' HLr hfr i,
    full_deriv (fun r p t => L p r t) fr fr' θr τ0 _ Lr' HLr hfr⟩

/-- Witness for C1 (amended): one microbatch, one-dimensional embeddings,
loss reading the first passage embedding. -/
theorem gradCache_tower_grad_sum_witness :
    (∀ i : Fin 1, HasDerivAt
        (sweepLossPass (k := 1) (F := ℝ) (fun p _ _ => p 0) (fun _ θ => θ)
          (cacheOf (fun _ θ => θ) 0) (cacheOf (fun _ θ => θ) 0) 0 i)
        ((ContinuousLinearMap.proj 0 : (Fin 1 → ℝ) →L[ℝ] ℝ) (Pi.single i (1 : ℝ))) 0)
    ∧ HasDerivAt (fullLossPass (k := 1) (F := ℝ) (fun p _ _ => p 0) (fun _ θ => θ)
          (cacheOf (fun _ θ => θ) 0) 0)
        (∑ i : Fin 1, (ContinuousLinearMap.proj 0 : (Fin 1 → ℝ) →L[ℝ] ℝ)
          (Pi.single i (1 : ℝ))) 0
    ∧ (∀ i : Fin 1, HasDerivAt
        (sweepLossRev (k := 1) (F := ℝ) (fun p _ _ => p 0) (fun _ θ => θ)
          (cacheOf (fun _ θ => θ) 0) (cacheOf (fun _ θ => θ) 0) 0 i)
        ((0 : (Fin 1 → ℝ) →L[ℝ] ℝ) (Pi.single i (1 : ℝ))) 0)
    ∧ HasDerivAt (fullLossRev (k := 1) (F := ℝ) (fun p _ _ => p 0) (fun _ θ => θ)
          (cacheOf (fun _ θ => θ) 0) 0)
        (∑ i : Fin 1, (0 : (Fin 1 → ℝ) →L[ℝ] ℝ) (Pi.single i (1 : ℝ))) 0 :=
  gradCache_tower_grad_sum (fun p _ _ => p 0) (fun _ θ => θ) (fun _ θ => θ)
    (fun _ => 1) (fun _ => 1) 0 0 0 (ContinuousLinearMap.proj 0) 0
    (by exact (ContinuousLinearMap.proj 0 : (Fin 1 → ℝ) →L[ℝ] ℝ).hasFDerivAt)
    (hasFDerivAt_const _ _)
    (fun _ => hasDerivAt_id' 0)
    (fun _ => hasDerivAt_id' 0)

/-- Claim C1 counterexample: the claim as stated — the accumulated gradients
equal the full-batch gradients for ALL parameters — is false for the learned
temperature.  The temperature is live in every one of the `2·k` backward
calls, so its accumulated gradient is `2·k` times the full-batch one: at
`k = 2` with the loss `L p r t = t`, the sweeps accumulate `4` while the
full-batch backward produces `1`. -/
theorem gradCache_full_equiv_fails_for_temperature :
    tauGradAccum (k := 2) (F := ℝ) (fun _ _ t => t) (fun _ _ => 0) (fun _ _ => 0) 0 0 0 = 4
    ∧ tauGradFull (k := 2) (F := ℝ) (fun _ _ t => t) (fun _ _ => 0) (fun _ _ => 0) 0 0 0 = 1
    ∧ tauGradAccum (k := 2) (F := ℝ) (fun _ _ t => t) (fun _ _ => 0) (fun _ _ => 0) 0 0 0
      ≠ tauGradFull (k := 2) (F := ℝ) (fun _ _ t => t) (fun _ _ => 0) (fun _ _ => 0) 0 0 0 := by
  have ha : tauGradAccum (k := 2) (F := ℝ) (fun _ _ t => t) (fun _ _ => 0) (fun _ _ => 0)
      0 0 0 = 4 := by
    norm_num [tauGradAccum, deriv_id'']
  have hf : tauGradFull (k := 2) (F := ℝ) (fun _ _ t => t) (fun _ _ => 0) (fun _ _ => 0)
      0 0 0 = 1 := by
    norm_num [tauGradFull, deriv_id'']
  exact ⟨ha, hf, by rw [ha, hf]; norm_num⟩

/-! ## Claim C6 — the temperature clamp -/

/-- Claim C6: for any stored value of the learned temperature (including
extreme values), the effective similarity scale — the exponential of the
temperature clamped between the fixed bounds `log(1/100)` (line 37) and
`log(100)` (line 38) — never falls outside `[1/100, 100]`. -/
theorem temperature_clamp_bounds (t : ℝ) :
    1 / 100 ≤ effectiveScale t ∧ effectiveScale t ≤ 100 := by
  have h1 : (0 : ℝ) < 1 / 100 := by norm_num
  have hmm : clamp_min ≤ clamp_max := Real.log_le_log h1 (by norm_num)
  constructor
  · have hc : clamp_min ≤ torchClamp t clamp_min clamp_max :=
      le_min (le_max_right t clamp_min) hmm
    have hexp : Real.exp clamp_min = 1 / 100 := by
      unfold clamp_min
      exact Real.exp_log h1
    have h2 := Real.exp_le_exp.mpr hc
    rw [hexp] at h2
    exact h2
  · have hc : torchClamp t clamp_min clamp_max ≤ clamp_max := min_le_right _ _
    have hexp : Real.exp clamp_max = 100 := by
      unfold clamp_max
      exact Real.exp_log (by norm_num)
    have h2 := Real.exp_le_exp.mpr hc
    rw [hexp] at h2
    exact h2

end CarpMLM

